import Mathlib

/-!
# Verification of the pullback-alert scanner (`pullback_alerts.py`)

A shallow embedding of the core of the scanner: the pullback calculator,
the per-asset-class policy tables, the trade suggester (`suggest_leap_strike`,
`suggest_expiry`, `estimate_payoff`), the per-symbol scan (`process_symbol`)
and the aggregation/sort in `main`.

Modelling conventions:
* Prices are exact rationals (`ℚ`); Python `round(x, d)` is modelled by
  `pyRound d`, rounding half-to-even as Python does.
* Float division, which is the only place the Python program can produce a
  non-finite value, is modelled by `EFloat`: a rational, NaN, `+∞` or `-∞`,
  with `efDiv` following IEEE-754 semantics for a finite numerator and
  denominator (`x / 0 = ±∞` for `x ≠ 0`, `0 / 0 = NaN`), and comparisons
  against a finite threshold following IEEE semantics (`NaN < t` is false,
  `NaN ≥ t` is false, `-∞ < t` is true, `+∞ ≥ t` is true).
* A downloaded series is `Option (List (Option ℚ))`: `none` models the
  fetch raising, `some raw` a frame whose rows may hold missing closes
  (`none` entries, removed by `dropna`).
* A Python dict is an association list in insertion order; dict lookup on
  the keys actually used is `List.lookup`.
-/

/-- A float value as produced by the scanner's divisions: a finite rational,
NaN, or a signed infinity. -/
inductive EFloat where
  | finite (q : ℚ)
  | nan
  | pinf
  | ninf
deriving DecidableEq, Repr

/-- IEEE-754 division of two *finite* values, as numpy/pandas perform it:
`a / b` is finite for `b ≠ 0`, `+∞` or `-∞` for `b = 0` and `a ≠ 0`,
and NaN for `0 / 0`. -/
def efDiv (a b : ℚ) : EFloat :=
  if b ≠ 0 then .finite (a / b)
  else if 0 < a then .pinf
  else if a < 0 then .ninf
  else .nan

/-- `np.isnan`: true exactly on NaN (false on `±∞`). -/
def EFloat.isnan : EFloat → Bool
  | .nan => true
  | _ => false

/-- IEEE comparison `x < t` for a finite threshold `t`:
false when `x` is NaN or `+∞`, true when `x` is `-∞`. -/
def EFloat.ltq : EFloat → ℚ → Bool
  | .finite q, t => decide (q < t)
  | .nan, _ => false
  | .pinf, _ => false
  | .ninf, _ => true

/-- IEEE comparison `x ≥ t` for a finite threshold `t`:
false when `x` is NaN or `-∞`, true when `x` is `+∞`. -/
def EFloat.geq : EFloat → ℚ → Bool
  | .finite q, t => decide (t ≤ q)
  | .nan, _ => false
  | .pinf, _ => true
  | .ninf, _ => false

/-- Round to the nearest integer, ties to even (Python's rounding mode). -/
def roundHalfEven (x : ℚ) : ℤ :=
  let n := ⌊x⌋
  if x - n < 1/2 then n
  else if x - n > 1/2 then n + 1
  else if Even n then n else n + 1

/-- Python's `round(x, d)`: round to `d` decimal places, ties to even. -/
def pyRound (d : ℕ) (x : ℚ) : ℚ :=
  (roundHalfEven (x * 10 ^ d) : ℚ) / 10 ^ d

/-- Scale a possibly non-finite pullback by 100 and round to 2 places, as
`round(pullback * 100, 2)` does (`round` of `±∞`/NaN returns it unchanged). -/
def EFloat.pctRound : EFloat → EFloat
  | .finite q => .finite (pyRound 2 (q * 100))
  | e => e

/- ---------------------------- CONFIGURATION ---------------------------- -/

def top_stocks : List String :=
  ["AAPL", "MSFT", "AMZN", "TSLA", "GOOGL", "NVDA", "META",
   "BRK-B", "UNH", "V", "JNJ", "KO", "PEP", "PG", "DIS"]

def spy_symbol : String := "SPY"

def pullback_thresholds_stocks : List (ℕ × ℚ) :=
  [(1, 0.005), (7, 0.010), (15, 0.120), (30, 0.130)]

def pullback_thresholds_spy : List (ℕ × ℚ) :=
  [(1, 0.025), (7, 0.051), (15, 0.10), (30, 0.15)]

def leap_expiry_months_stocks : List (ℕ × ℕ) :=
  [(1, 12), (7, 12), (15, 18), (30, 24)]

def leap_expiry_months_spy : List (ℕ × ℕ) :=
  [(1, 12), (7, 12), (15, 18), (30, 24)]

def recovery_map_stocks : List (ℕ × ℚ) :=
  [(1, 0.10), (7, 0.20), (15, 0.40), (30, 0.60)]

def recovery_map_spy : List (ℕ × ℚ) :=
  [(1, 0.05), (7, 0.10), (15, 0.20), (30, 0.30)]

/- ------------------------------ CALCULATOR ------------------------------ -/

/-- Maximum of the window of the trailing `period` closes ending at index `i`
(`rolling(window=period, min_periods=1).max()` at row `i`): the maximum of
`data[i+1-period ... i]`, a nonempty window whenever `i < data.length`. -/
def windowMax (data : List ℚ) (period i : ℕ) : ℚ :=
  match (data.take (i + 1)).drop (i + 1 - period) with
  | [] => 0
  | h :: t => t.foldl max h

/-- `calculate_pullback(data, period)`: for `period = 1` the series
`(Close.shift(1) - Close) / Close.shift(1)` (NaN at the first row); otherwise
`(rolling_max - Close) / rolling_max` with the rolling maximum over the
trailing `period` closes, `min_periods=1`. -/
def calculate_pullback (data : List ℚ) (period : ℕ) : List EFloat :=
  if period = 1 then
    (List.range data.length).map fun i =>
      match i with
      | 0 => .nan
      | j + 1 => efDiv (data.getD j 0 - data.getD (j + 1) 0) (data.getD j 0)
  else
    (List.range data.length).map fun i =>
      efDiv (windowMax data period i - data.getD i 0) (windowMax data period i)

/- ---------------------------- TRADE SUGGESTER --------------------------- -/

/-- `suggest_leap_strike(price, pullback, is_spy)`: for SPY,
`round(price * (1.02 if pullback >= 0.05 else 1.0), 1)`; for equities,
`round(price, 1)` when `pullback < 0.10`, `round(price * 1.05, 1)` when
`pullback < 0.20`, else `round(price * 1.10, 1)`. The pullback is the raw
float, so the comparisons use IEEE semantics. -/
def suggest_leap_strike (price : ℚ) (pullback : EFloat) (is_spy : Bool) : ℚ :=
  if is_spy then
    pyRound 1 (price * (if pullback.geq 0.05 then 1.02 else 1.0))
  else if pullback.ltq 0.10 then pyRound 1 price
  else if pullback.ltq 0.20 then pyRound 1 (price * 1.05)
  else pyRound 1 (price * 1.10)

/-- `suggest_expiry(period, is_spy)`: lookup in the asset class's expiry
table (the scanner only calls it on keys present in the table). -/
def suggest_expiry (period : ℕ) (is_spy : Bool) : ℕ :=
  (((if is_spy then leap_expiry_months_spy else leap_expiry_months_stocks).lookup
    period).getD 0)

/-- The recovery assumption looked up in `process_symbol`:
`(recovery_map_spy if is_spy else recovery_map_stocks)[period]`. -/
def recovery_for (period : ℕ) (is_spy : Bool) : ℚ :=
  (((if is_spy then recovery_map_spy else recovery_map_stocks).lookup
    period).getD 0)

/-- `estimate_payoff(price, strike, recovery) = max(0, price * (1 + recovery) - strike)`. -/
def estimate_payoff (price strike recovery : ℚ) : ℚ :=
  max 0 (price * (1 + recovery) - strike)

/- ------------------------------ CORE SCAN ------------------------------- -/

/-- One row appended to `alerts` by `process_symbol`. -/
structure AlertRecord where
  group : String
  symbol : String
  currentPrice : ℚ
  pullbackPct : EFloat
  periodDays : ℕ
  suggestedStrike : ℚ
  suggestedExpiryMonths : ℕ
  estimatedPayoff : ℚ
deriving DecidableEq, Repr

/-- One iteration of the `for period, threshold in thresholds.items()` loop of
`process_symbol`: skip when the pullback series is empty, when its latest
value is NaN, or when it is below the threshold; otherwise build the record. -/
def scanPeriod (data : List ℚ) (price : ℚ) (group symbol : String)
    (is_spy : Bool) (period : ℕ) (threshold : ℚ) : Option AlertRecord :=
  let ps := calculate_pullback data period
  if ps.isEmpty then none
  else
    let pullback := ps.getLastD .nan
    if pullback.isnan || pullback.ltq threshold then none
    else
      let strike := suggest_leap_strike price pullback is_spy
      let expiry := suggest_expiry period is_spy
      let recovery := recovery_for period is_spy
      let payoff := estimate_payoff price strike recovery
      some
        { group := group
          symbol := symbol
          currentPrice := pyRound 2 price
          pullbackPct := pullback.pctRound
          periodDays := period
          suggestedStrike := strike
          suggestedExpiryMonths := expiry
          estimatedPayoff := pyRound 2 payoff }

/-- `process_symbol(symbol, thresholds, group, is_spy)`. The download result
is `none` when `yf.download` raises (caught, returning `[]`); otherwise the
raw rows are `dropna`-ed, an empty frame returns `[]`, and each configured
period is scanned against its threshold. -/
def process_symbol (download : Option (List (Option ℚ)))
    (thresholds : List (ℕ × ℚ)) (group symbol : String) (is_spy : Bool) :
    List AlertRecord :=
  match download with
  | none => []
  | some raw =>
    let data := raw.filterMap id
    if data.isEmpty then []
    else
      let price := data.getLastD 0
      thresholds.filterMap fun pt =>
        scanPeriod data price group symbol is_spy pt.1 pt.2

/- ------------------------------- MAIN ----------------------------------- -/

/-- Sort key of a row: `(Period (days), Group, Symbol)` in lexicographic
order, the key list of `df.sort_values`. -/
def recKey (r : AlertRecord) : Lex (ℕ × Lex (String × String)) :=
  toLex (r.periodDays, toLex (r.group, r.symbol))

/-- The row order used by the final sort: ascending in `recKey`. -/
def recLe (a b : AlertRecord) : Prop :=
  recKey a ≤ recKey b

instance : DecidableRel recLe := fun a b =>
  inferInstanceAs (Decidable (recKey a ≤ recKey b))

instance : IsTotal AlertRecord recLe :=
  ⟨fun a b => le_total (recKey a) (recKey b)⟩

instance : IsTrans AlertRecord recLe :=
  ⟨fun _ _ _ h h' => le_trans h h'⟩

/-- The alert list built by `main` before the DataFrame stage: SPY with the
SPY thresholds, the curated list under "Top 15", then the S&P 500
constituents with the curated symbols and SPY removed (Python's set
difference, modelled as dedup-and-filter), under "S&P 500". The price
provider is abstract: `fetch s` is what `yf.download` + `dropna` yields
for symbol `s`. -/
def mainAlerts (fetch : String → Option (List (Option ℚ)))
    (sp500_raw : List String) : List AlertRecord :=
  process_symbol (fetch spy_symbol) pullback_thresholds_spy "SPY" spy_symbol true
    ++ (top_stocks.map fun s =>
          process_symbol (fetch s) pullback_thresholds_stocks "Top 15" s false).flatten
    ++ ((sp500_raw.eraseDups.filter fun s =>
          !(top_stocks.contains s) && s != spy_symbol).map fun s =>
          process_symbol (fetch s) pullback_thresholds_stocks "S&P 500" s false).flatten

/-- The sentinel row substituted when no alert is produced. -/
structure PlaceholderRow where
  group : String
  symbol : String
  currentPrice : String
  pullbackPct : String
  periodDays : String
  suggestedStrike : String
  suggestedExpiryMonths : String
  estimatedPayoff : String
deriving DecidableEq, Repr

/-- The literal placeholder row of `main`. -/
def noAlertsRow : PlaceholderRow :=
  { group := "-"
    symbol := "-"
    currentPrice := "-"
    pullbackPct := "-"
    periodDays := "-"
    suggestedStrike := "-"
    suggestedExpiryMonths := "-"
    estimatedPayoff := "No alerts today" }

/-- The final report: either the single placeholder row or the nonempty,
sorted list of alert rows. -/
inductive ReportTable where
  | placeholder (row : PlaceholderRow)
  | rows (rs : List AlertRecord)
deriving DecidableEq, Repr

/-- The alert rows of the table (the placeholder row is not an alert row). -/
def ReportTable.recordRows : ReportTable → List AlertRecord
  | .placeholder _ => []
  | .rows rs => rs

/-- Number of rows rendered for the table. -/
def ReportTable.rowCount : ReportTable → ℕ
  | .placeholder _ => 1
  | .rows rs => rs.length

/-- `main` up to the report renderer: build the alert list, substitute the
placeholder if it is empty, and sort ascending by
`(Period (days), Group, Symbol)` (sorting the one-row placeholder frame is
the identity). -/
def mainTable (fetch : String → Option (List (Option ℚ)))
    (sp500_raw : List String) : ReportTable :=
  let alerts := mainAlerts fetch sp500_raw
  if alerts.isEmpty then .placeholder noAlertsRow
  else .rows (alerts.insertionSort recLe)

/- ----------------------------- BASIC LEMMAS ----------------------------- -/

/-- A finite pullback value (the claims call non-finite what is NaN or `±∞`). -/
def EFloat.isFinite : EFloat → Bool
  | .finite _ => true
  | _ => false

theorem le_foldl_max_self (t : List ℚ) : ∀ a : ℚ, a ≤ t.foldl max a := by
  induction t with
  | nil => intro a; exact le_refl a
  | cons b t ih =>
    intro a
    exact le_trans (le_max_left a b) (ih (max a b))

theorem le_foldl_max_of_mem {t : List ℚ} {x : ℚ} (hx : x ∈ t) :
    ∀ a : ℚ, x ≤ t.foldl max a := by
  induction t with
  | nil => cases hx
  | cons b t ih =>
    intro a
    rcases List.mem_cons.1 hx with rfl | hm
    · exact le_trans (le_max_right a x) (le_foldl_max_self t (max a x))
    · exact ih hm (max a b)

theorem foldl_max_const {t : List ℚ} {c : ℚ} (h : ∀ x ∈ t, x = c) :
    t.foldl max c = c := by
  induction t with
  | nil => rfl
  | cons b t ih =>
    have hb : b = c := h b (List.mem_cons_self b t)
    have ht : ∀ x ∈ t, x = c := fun x hx => h x (List.mem_cons_of_mem b hx)
    simpa [hb] using ih ht

/-- The close at index `i` belongs to its own trailing window. -/
theorem getElem_mem_window (data : List ℚ) (period i : ℕ) (hi : i < data.length)
    (hp : 1 ≤ period) :
    data[i] ∈ (data.take (i + 1)).drop (i + 1 - period) := by
  have hlt : i - (i + 1 - period) < ((data.take (i + 1)).drop (i + 1 - period)).length := by
    simp only [List.length_drop, List.length_take]
    omega
  have h2 : i + 1 - period + (i - (i + 1 - period)) = i := by omega
  have e1 : ((data.take (i + 1)).drop (i + 1 - period)).get ⟨i - (i + 1 - period), hlt⟩
      = data[i] := by
    rw [List.get_eq_getElem, List.getElem_drop, List.getElem_take]
    simp only [h2]
  have := List.get_mem ((data.take (i + 1)).drop (i + 1 - period)) (i - (i + 1 - period)) hlt
  rwa [e1] at this

/-- The rolling maximum dominates the current close. -/
theorem getD_le_windowMax (data : List ℚ) (period i : ℕ) (hi : i < data.length)
    (hp : 1 ≤ period) :
    data.getD i 0 ≤ windowMax data period i := by
  have hmem := getElem_mem_window data period i hi hp
  rw [List.getD_eq_getElem data 0 hi]
  rcases hw : (data.take (i + 1)).drop (i + 1 - period) with _ | ⟨h, t⟩
  · rw [hw] at hmem; cases hmem
  · rw [hw] at hmem
    unfold windowMax
    rw [hw]
    rcases List.mem_cons.1 hmem with rfl | hm
    · exact le_foldl_max_self t _
    · exact le_foldl_max_of_mem hm h

/-- On a series whose closes are all `c`, every rolling maximum is `c`. -/
theorem windowMax_const {data : List ℚ} {c : ℚ} (h : ∀ x ∈ data, x = c)
    (period i : ℕ) (hi : i < data.length) (hp : 1 ≤ period) :
    windowMax data period i = c := by
  have hmem := getElem_mem_window data period i hi hp
  rcases hw : (data.take (i + 1)).drop (i + 1 - period) with _ | ⟨hd, t⟩
  · rw [hw] at hmem; cases hmem
  · have hwin : ∀ x ∈ hd :: t, x = c := by
      intro x hx
      rw [← hw] at hx
      exact h x (List.mem_of_mem_take (List.mem_of_mem_drop hx))
    have hhd : hd = c := hwin hd (List.mem_cons_self hd t)
    unfold windowMax
    rw [hw]
    have ht : ∀ x ∈ t, x = c := fun x hx => hwin x (List.mem_cons_of_mem hd hx)
    rw [hhd]
    exact foldl_max_const ht

/-- Every value of a `period ≠ 1` pullback series is a rolling-max drawdown. -/
theorem mem_calculate_pullback {data : List ℚ} {p : ℕ} (hp : p ≠ 1) {y : EFloat}
    (hy : y ∈ calculate_pullback data p) :
    ∃ i, i < data.length ∧
      y = efDiv (windowMax data p i - data.getD i 0) (windowMax data p i) := by
  unfold calculate_pullback at hy
  rw [if_neg hp] at hy
  obtain ⟨i, hi, rfl⟩ := List.mem_map.1 hy
  exact ⟨i, List.mem_range.1 hi, rfl⟩

/-- The latest value of the daily pullback series depends only on the last
two closes: it is `(previous - current) / previous`. -/
theorem pullback1_last (l : List ℚ) (a b : ℚ) :
    (calculate_pullback (l ++ [a, b]) 1).getLastD .nan = efDiv (a - b) a := by
  have hgd1 : (l ++ [a, b]).getD l.length 0 = a := by
    rw [List.getD_append_right _ _ _ _ (le_refl _)]
    simp
  have hgd2 : (l ++ [a, b]).getD (l.length + 1) 0 = b := by
    rw [List.getD_append_right _ _ _ _ (by omega)]
    simp
  have hlen : (l ++ [a, b]).length = l.length + 1 + 1 := by simp
  unfold calculate_pullback
  rw [if_pos rfl, hlen, List.range_succ, List.map_append]
  simp only [List.map_cons, List.map_nil, List.getLastD_concat]
  rw [hgd1, hgd2]

/-- A record emitted by one loop iteration carries that iteration's group,
symbol and period. -/
theorem scanPeriod_eq_some {data : List ℚ} {price : ℚ} {g s : String} {b : Bool}
    {period : ℕ} {t : ℚ} {r : AlertRecord}
    (h : scanPeriod data price g s b period t = some r) :
    r.group = g ∧ r.symbol = s ∧ r.periodDays = period := by
  simp only [scanPeriod] at h
  split at h
  · cases h
  · split at h
    · cases h
    · cases h
      exact ⟨rfl, rfl, rfl⟩

/-- A NaN or `-∞` latest pullback makes the iteration emit nothing: NaN is
caught by `np.isnan`, `-∞` compares below every (finite) threshold. -/
theorem scanPeriod_skips {data : List ℚ} {price : ℚ} {g s : String} {b : Bool}
    {period : ℕ} {t : ℚ}
    (h : (calculate_pullback data period).getLastD .nan = .nan ∨
         (calculate_pullback data period).getLastD .nan = .ninf) :
    scanPeriod data price g s b period t = none := by
  simp only [scanPeriod]
  rcases h with h | h <;>
    · rw [h]
      split
      · rfl
      · simp [EFloat.isnan, EFloat.ltq]

/-- Every record returned by `process_symbol` carries the scan's group and
symbol. -/
theorem mem_process_symbol {dl : Option (List (Option ℚ))} {th : List (ℕ × ℚ)}
    {g s : String} {b : Bool} {r : AlertRecord}
    (h : r ∈ process_symbol dl th g s b) :
    r.group = g ∧ r.symbol = s := by
  match dl with
  | none => cases h
  | some raw =>
    simp only [process_symbol] at h
    split at h
    · cases h
    · obtain ⟨pt, _, heq⟩ := List.mem_filterMap.1 h
      exact ⟨(scanPeriod_eq_some heq).1, (scanPeriod_eq_some heq).2.1⟩

/- ------------------------------- CLAIMS --------------------------------- -/

/-- Claim C1, counterexample: at pullback `30/130 = 3/13 ≈ 0.2308` the code
takes the `pullback ≥ 0.20` branch, so the equity strike at price 100 is
`110.0`, not `105.0`; the 30-day equity expiry is 24 months, not 18; and the
30-day equity recovery is `0.60`, not `0.40`. -/
theorem C1_scenario_cex :
    suggest_leap_strike 100 (.finite (3/13)) false = 110 ∧ (110 : ℚ) ≠ 105 ∧
    suggest_expiry 30 false = 24 ∧ (24 : ℕ) ≠ 18 ∧
    recovery_for 30 false = 0.60 ∧ (0.60 : ℚ) ≠ 0.40 := by
  refine ⟨?_, by norm_num, rfl, by decide, rfl, by norm_num⟩
  norm_num [suggest_leap_strike, EFloat.ltq, pyRound, roundHalfEven]

/-- Claim C1 (amended): an equity at price 100 whose 30-day rolling maximum
of closes is 130 has pullback `3/13 ≈ 0.2308` at the latest bar, and the
30-day suggestion is strike `100 × 1.10 = 110.0`, expiry 24 months,
recovery `0.60`, payoff `max(0, 100 × 1.6 − 110) = 50.0`; `process_symbol`
emits exactly that record for the 30-day period on the series `[130, 100]`. -/
theorem C1_scenario :
    (calculate_pullback [130, 100] 30).getLastD .nan = .finite (3/13) ∧
    suggest_leap_strike 100 (.finite (3/13)) false = 110 ∧
    suggest_expiry 30 false = 24 ∧
    recovery_for 30 false = 0.60 ∧
    estimate_payoff 100 110 0.60 = 50 ∧
    { group := "Top 15", symbol := "AAPL", currentPrice := 100,
      pullbackPct := .finite 23.08, periodDays := 30, suggestedStrike := 110,
      suggestedExpiryMonths := 24, estimatedPayoff := 50 } ∈
      process_symbol (some [some 130, some 100]) pullback_thresholds_stocks
        "Top 15" "AAPL" false := by
  have hs : scanPeriod [130, 100] 100 "Top 15" "AAPL" false 30 0.130 = some
      { group := "Top 15", symbol := "AAPL", currentPrice := 100,
        pullbackPct := .finite 23.08, periodDays := 30, suggestedStrike := 110,
        suggestedExpiryMonths := 24, estimatedPayoff := 50 } := by
    norm_num [scanPeriod, calculate_pullback, windowMax, efDiv, pyRound,
      roundHalfEven, EFloat.isnan, EFloat.ltq, EFloat.pctRound,
      suggest_leap_strike, EFloat.geq, estimate_payoff, List.range_succ,
      show suggest_expiry 30 false = 24 from rfl,
      show recovery_for 30 false = 0.60 from rfl]
  refine ⟨?_, ?_, rfl, rfl, by norm_num [estimate_payoff], ?_⟩
  · norm_num [calculate_pullback, windowMax, efDiv, List.range_succ]
  · norm_num [suggest_leap_strike, EFloat.ltq, pyRound, roundHalfEven]
  · simp only [process_symbol, List.filterMap_cons, id]
    norm_num
    exact ⟨30, 0.130, by simp [pullback_thresholds_stocks], by rw [hs]; norm_num⟩

/-- Claim C2, counterexample: on the series of closes `[0, -1]` the 7-day
pullback at the latest bar is `+∞` (zero rolling maximum, negative close) —
not a finite number — yet `process_symbol` does *not* skip the period: the
guard `np.isnan(pullback) or pullback < threshold` lets `+∞` through and an
AlertRecord for period 7 is emitted. -/
theorem C2_nonfinite_cex :
    ((calculate_pullback (([some 0, some (-1)] : List (Option ℚ)).filterMap id)
        7).getLastD .nan).isFinite = false ∧
    { group := "G", symbol := "S", currentPrice := -1, pullbackPct := .pinf,
      periodDays := 7, suggestedStrike := -1.1, suggestedExpiryMonths := 12,
      estimatedPayoff := 0 } ∈
      process_symbol (some [some 0, some (-1)]) pullback_thresholds_stocks
        "G" "S" false := by
  have hs : scanPeriod [0, -1] (-1) "G" "S" false 7 0.010 = some
      { group := "G", symbol := "S", currentPrice := -1, pullbackPct := .pinf,
        periodDays := 7, suggestedStrike := -1.1, suggestedExpiryMonths := 12,
        estimatedPayoff := 0 } := by
    norm_num [scanPeriod, calculate_pullback, windowMax, efDiv, pyRound,
      roundHalfEven, EFloat.isnan, EFloat.ltq, EFloat.pctRound,
      suggest_leap_strike, EFloat.geq, estimate_payoff, List.range_succ,
      show suggest_expiry 7 false = 12 from rfl,
      show recovery_for 7 false = 0.20 from rfl]
  constructor
  · norm_num [calculate_pullback, windowMax, efDiv, List.range_succ,
      EFloat.isFinite, List.filterMap]
  · simp only [process_symbol, List.filterMap_cons, id]
    norm_num
    exact ⟨7, 0.010, by simp [pullback_thresholds_stocks], by rw [hs]; norm_num⟩

/-- Claim C2 (amended): if the pullback fraction at the latest bar is NaN or
`-∞`, `process_symbol` emits no AlertRecord for that period (and raises no
error); a `+∞` fraction, however, passes the guard. -/
theorem C2_nonfinite_skip (raw : List (Option ℚ)) (thresholds : List (ℕ × ℚ))
    (g s : String) (b : Bool) (period : ℕ)
    (h : (calculate_pullback (raw.filterMap id) period).getLastD .nan = .nan ∨
         (calculate_pullback (raw.filterMap id) period).getLastD .nan = .ninf) :
    ∀ r ∈ process_symbol (some raw) thresholds g s b, r.periodDays ≠ period := by
  intro r hr
  simp only [process_symbol] at hr
  split at hr
  · cases hr
  · obtain ⟨pt, hpt, heq⟩ := List.mem_filterMap.1 hr
    intro hcontra
    have hper : r.periodDays = pt.1 := (scanPeriod_eq_some heq).2.2
    rw [hper] at hcontra
    rw [hcontra] at heq
    rw [scanPeriod_skips h] at heq
    cases heq

/-- Witness for `C2_nonfinite_skip`: a single-bar series has a NaN daily
pullback, and the scan of that series emits no period-1 record. -/
theorem C2_nonfinite_skip_wit :
    (calculate_pullback (([some 100] : List (Option ℚ)).filterMap id)
        1).getLastD .nan = .nan ∧
    ∀ r ∈ process_symbol (some [some 100]) pullback_thresholds_stocks "G" "S"
        false, r.periodDays ≠ 1 :=
  ⟨by decide,
   C2_nonfinite_skip [some 100] pullback_thresholds_stocks "G" "S" false 1
     (Or.inl (by decide))⟩

/-- Claim C3: the strike policy of `suggest_leap_strike` — for equities,
`round(p, 1)` below pullback 0.10, `round(p × 1.05, 1)` in `[0.10, 0.20)`,
`round(p × 1.10, 1)` at or above 0.20; for the index proxy, `round(p, 1)`
below 0.05 and `round(p × 1.02, 1)` at or above 0.05. -/
theorem C3_strike_policy (p f : ℚ) (hp : 0 ≤ p) :
    (f < 0.10 → suggest_leap_strike p (.finite f) false = pyRound 1 p) ∧
    (0.10 ≤ f → f < 0.20 →
      suggest_leap_strike p (.finite f) false = pyRound 1 (p * 1.05)) ∧
    (0.20 ≤ f → suggest_leap_strike p (.finite f) false = pyRound 1 (p * 1.10)) ∧
    (f < 0.05 → suggest_leap_strike p (.finite f) true = pyRound 1 p) ∧
    (0.05 ≤ f → suggest_leap_strike p (.finite f) true = pyRound 1 (p * 1.02)) := by
  refine ⟨?_, ?_, ?_, ?_, ?_⟩
  · intro h
    simp [suggest_leap_strike, EFloat.ltq, h]
  · intro h1 h2
    simp [suggest_leap_strike, EFloat.ltq, h2, not_lt.2 h1]
  · intro h
    have h1 : ¬ (f < 0.10) := not_lt.2 (le_trans (by norm_num) h)
    have h2 : ¬ (f < 0.20) := not_lt.2 h
    simp [suggest_leap_strike, EFloat.ltq, h1, h2]
  · intro h
    have h1 : ¬ ((0.05 : ℚ) ≤ f) := not_le.2 h
    simp [suggest_leap_strike, EFloat.geq, h1]
    norm_num
  · intro h
    simp [suggest_leap_strike, EFloat.geq, h]

/-- Witness for `C3_strike_policy` at `p = 100`, `f = 0.15`. -/
theorem C3_strike_policy_wit :
    (0 : ℚ) ≤ 100 ∧
    (((0.15 : ℚ) < 0.10 →
        suggest_leap_strike 100 (.finite 0.15) false = pyRound 1 100) ∧
      ((0.10 : ℚ) ≤ 0.15 → (0.15 : ℚ) < 0.20 →
        suggest_leap_strike 100 (.finite 0.15) false = pyRound 1 (100 * 1.05)) ∧
      ((0.20 : ℚ) ≤ 0.15 →
        suggest_leap_strike 100 (.finite 0.15) false = pyRound 1 (100 * 1.10)) ∧
      ((0.15 : ℚ) < 0.05 →
        suggest_leap_strike 100 (.finite 0.15) true = pyRound 1 100) ∧
      ((0.05 : ℚ) ≤ 0.15 →
        suggest_leap_strike 100 (.finite 0.15) true = pyRound 1 (100 * 1.02))) :=
  ⟨by norm_num, C3_strike_policy 100 0.15 (by norm_num)⟩

/-- Claim C4, counterexample: on the series `[-1, 1]` the latest close (1)
exceeds the previous close (-1), but the daily fraction
`(prev − cur) / prev = (-1 - 1) / (-1) = 2` is positive, not strictly
negative — the claim's second half fails when the previous close is not
positive. -/
theorem C4_daily_cex :
    (calculate_pullback [-1, 1] 1).getLastD .nan = .finite 2 ∧
    ((-1 : ℚ) < 1) ∧ ¬ ((2 : ℚ) < 0) := by
  refine ⟨?_, by norm_num, by norm_num⟩
  norm_num [calculate_pullback, efDiv, List.range_succ]

/-- Claim C4 (amended): for period 1 the latest fraction is
`(previous − current) / previous`: any series ending in closes 100 then 90
yields exactly `0.10`, and any series whose *positive* previous close is
exceeded by the latest close yields a strictly negative fraction. -/
theorem C4_daily (l : List ℚ) (a b : ℚ) (ha : 0 < a) (hab : a < b) :
    (calculate_pullback (l ++ [100, 90]) 1).getLastD .nan = .finite 0.10 ∧
    ∃ q, (calculate_pullback (l ++ [a, b]) 1).getLastD .nan = .finite q ∧
      q < 0 := by
  constructor
  · rw [pullback1_last]
    norm_num [efDiv]
  · refine ⟨(a - b) / a, ?_, ?_⟩
    · rw [pullback1_last]
      simp [efDiv, ha.ne']
    · exact div_neg_of_neg_of_pos (sub_neg.2 hab) ha

/-- Witness for `C4_daily` with empty prefix and a rise from 100 to 200. -/
theorem C4_daily_wit :
    (0 : ℚ) < 100 ∧ (100 : ℚ) < 200 ∧
    ((calculate_pullback ([] ++ [100, 90]) 1).getLastD .nan = .finite 0.10 ∧
      ∃ q, (calculate_pullback ([] ++ [100, 200]) 1).getLastD .nan = .finite q ∧
        q < 0) :=
  ⟨by norm_num, by norm_num, C4_daily [] 100 200 (by norm_num) (by norm_num)⟩

/-- Claim C5, counterexample: the constant-zero series has rolling maximum 0,
so every bar's fraction is `0/0 = NaN`, not 0 — the claim fails for the
(degenerate) constant price 0. -/
theorem C5_const_cex :
    calculate_pullback [0, 0] 7 = [.nan, .nan] ∧ EFloat.nan ≠ .finite 0 := by
  refine ⟨?_, by decide⟩
  norm_num [calculate_pullback, windowMax, efDiv, List.range_succ]

/-- Claim C5 (amended): for every period `p > 1` and every series of closes
all equal to one *nonzero* value, the pullback fraction is 0 at every bar:
the rolling maximum equals the close. -/
theorem C5_const (l : List ℚ) (c : ℚ) (p : ℕ) (hp : 1 < p) (hc : c ≠ 0)
    (hl : ∀ x ∈ l, x = c) :
    ∀ y ∈ calculate_pullback l p, y = .finite 0 := by
  intro y hy
  obtain ⟨i, hi, rfl⟩ := mem_calculate_pullback hp.ne' hy
  have hw : windowMax l p i = c := windowMax_const hl p i hi hp.le
  have hgd : l.getD i 0 = c := by
    rw [List.getD_eq_getElem l 0 hi]
    exact hl _ (List.getElem_mem hi)
  rw [hw, hgd]
  simp [efDiv, hc]

/-- Witness for `C5_const`: the constant series `[100, 100]` at period 7. -/
theorem C5_const_wit :
    (1 < 7) ∧ ((100 : ℚ) ≠ 0) ∧
    (∀ y ∈ calculate_pullback [100, 100] 7, y = .finite 0) :=
  ⟨by norm_num, by norm_num,
   C5_const [100, 100] 100 7 (by norm_num) (by norm_num) (by
     intro x hx
     simp at hx
     exact hx)⟩

/-- Claim C6: the rows of the final report table are non-decreasing in the
lexicographic order of `(Period (days), Group, Symbol)` — every adjacent pair
is ordered (the one-row placeholder table has no adjacent pair). -/
theorem C6_sorted (fetch : String → Option (List (Option ℚ)))
    (sp500 : List String) :
    List.Chain' recLe (mainTable fetch sp500).recordRows := by
  simp only [mainTable]
  split
  · exact List.chain'_nil
  · exact ((List.sorted_insertionSort recLe _).chain' :)

/-- Claim C7: no AlertRecord whose group label is "S&P 500" carries a symbol
from the curated large-cap list or the proxy symbol: those are removed from
the constituent list before scanning. -/
theorem C7_exclusion (fetch : String → Option (List (Option ℚ)))
    (sp500 : List String) (r : AlertRecord) (hr : r ∈ mainAlerts fetch sp500)
    (hg : r.group = "S&P 500") :
    r.symbol ∉ top_stocks ∧ r.symbol ≠ spy_symbol := by
  unfold mainAlerts at hr
  rcases List.mem_append.1 hr with h1 | hc
  · rcases List.mem_append.1 h1 with ha | hb
    · have hgr := (mem_process_symbol ha).1
      rw [hg] at hgr
      exact absurd hgr (by decide)
    · obtain ⟨lrec, hl, hrin⟩ := List.mem_flatten.1 hb
      obtain ⟨s', _, rfl⟩ := List.mem_map.1 hl
      have hgr := (mem_process_symbol hrin).1
      rw [hg] at hgr
      exact absurd hgr (by decide)
  · obtain ⟨lrec, hl, hrin⟩ := List.mem_flatten.1 hc
    obtain ⟨s', hs', rfl⟩ := List.mem_map.1 hl
    have hsym := (mem_process_symbol hrin).2
    have hpred := (List.mem_filter.1 hs').2
    rw [Bool.and_eq_true] at hpred
    constructor
    · rw [hsym]
      intro hmem
      have := hpred.1
      rw [Bool.not_eq_true', ← Bool.not_eq_true] at this
      exact this (List.elem_iff.2 hmem)
    · rw [hsym]
      simpa using hpred.2

/-- Witness for `C7_exclusion`: a run whose constituent list is just "XYZ"
(every symbol showing a drop from 1000 to 993, which triggers only the 1-day
period) emits an "S&P 500" record for "XYZ", and "XYZ" is outside the
curated list and is not the proxy. -/
theorem C7_exclusion_wit :
    ({ group := "S&P 500", symbol := "XYZ", currentPrice := 993,
       pullbackPct := .finite 0.7, periodDays := 1, suggestedStrike := 993,
       suggestedExpiryMonths := 12, estimatedPayoff := 99.3 } : AlertRecord) ∈
      mainAlerts (fun _ => some [some 1000, some 993]) ["XYZ"] ∧
    (("XYZ" : String) ∉ top_stocks ∧ ("XYZ" : String) ≠ spy_symbol) := by
  have hs : scanPeriod [1000, 993] 993 "S&P 500" "XYZ" false 1 0.005 = some
      { group := "S&P 500", symbol := "XYZ", currentPrice := 993,
        pullbackPct := .finite 0.7, periodDays := 1, suggestedStrike := 993,
        suggestedExpiryMonths := 12, estimatedPayoff := 99.3 } := by
    norm_num [scanPeriod, calculate_pullback, efDiv, pyRound,
      roundHalfEven, EFloat.isnan, EFloat.ltq, EFloat.pctRound,
      suggest_leap_strike, EFloat.geq, estimate_payoff, List.range_succ,
      show suggest_expiry 1 false = 12 from rfl,
      show recovery_for 1 false = 0.10 from rfl]
  have hr :
      ({ group := "S&P 500", symbol := "XYZ", currentPrice := 993,
         pullbackPct := .finite 0.7, periodDays := 1, suggestedStrike := 993,
         suggestedExpiryMonths := 12, estimatedPayoff := 99.3 } : AlertRecord) ∈
        process_symbol (some [some 1000, some 993]) pullback_thresholds_stocks
          "S&P 500" "XYZ" false := by
    simp only [process_symbol, List.filterMap_cons, id]
    norm_num
    exact ⟨1, 0.005, by simp [pullback_thresholds_stocks], by rw [hs]; norm_num⟩
  have hsym : ((["XYZ"] : List String).eraseDups.filter fun s =>
      !(top_stocks.contains s) && s != spy_symbol) = ["XYZ"] := by decide
  have hmem :
      ({ group := "S&P 500", symbol := "XYZ", currentPrice := 993,
         pullbackPct := .finite 0.7, periodDays := 1, suggestedStrike := 993,
         suggestedExpiryMonths := 12, estimatedPayoff := 99.3 } : AlertRecord) ∈
        mainAlerts (fun _ => some [some 1000, some 993]) ["XYZ"] := by
    unfold mainAlerts
    rw [hsym]
    refine List.mem_append.2 (Or.inr ?_)
    simp only [List.map_cons, List.map_nil]
    exact List.mem_flatten.2 ⟨_, List.mem_cons_self _ _, hr⟩
  exact ⟨hmem,
    C7_exclusion (fun _ => some [some 1000, some 993]) ["XYZ"] _ hmem rfl⟩

/-- Claim C8: when the run produces no alert at all, the final table is the
single placeholder row whose payoff-equivalent field is the literal string
"No alerts today" — the table is never structurally empty. -/
theorem C8_placeholder (fetch : String → Option (List (Option ℚ)))
    (sp500 : List String) (h : mainAlerts fetch sp500 = []) :
    mainTable fetch sp500 = .placeholder noAlertsRow ∧
    (mainTable fetch sp500).rowCount = 1 ∧
    noAlertsRow.estimatedPayoff = "No alerts today" := by
  have ht : mainTable fetch sp500 = .placeholder noAlertsRow := by
    simp [mainTable, h]
  exact ⟨ht, by rw [ht]; rfl, rfl⟩

/-- Witness for `C8_placeholder`: every fetch failing yields the placeholder
table. -/
theorem C8_placeholder_wit :
    mainAlerts (fun _ => none) [] = [] ∧
    (mainTable (fun _ => none) [] = .placeholder noAlertsRow ∧
      (mainTable (fun _ => none) []).rowCount = 1 ∧
      noAlertsRow.estimatedPayoff = "No alerts today") :=
  ⟨rfl, C8_placeholder (fun _ => none) [] rfl⟩

/-- Claim C9: failure isolation of `process_symbol` — a raised fetch, an
empty frame, or a frame that is empty after `dropna` all yield the empty
alert list (and, being a total function, no error). -/
theorem C9_isolation (th : List (ℕ × ℚ)) (g s : String) (b : Bool)
    (raw : List (Option ℚ)) (h : raw.filterMap id = []) :
    process_symbol none th g s b = [] ∧
    process_symbol (some []) th g s b = [] ∧
    process_symbol (some raw) th g s b = [] := by
  refine ⟨rfl, rfl, ?_⟩
  simp [process_symbol, h]

/-- Witness for `C9_isolation`: an all-NaN single-row frame. -/
theorem C9_isolation_wit :
    (([none] : List (Option ℚ)).filterMap id = []) ∧
    (process_symbol none pullback_thresholds_stocks "G" "S" false = [] ∧
      process_symbol (some []) pullback_thresholds_stocks "G" "S" false = [] ∧
      process_symbol (some [none]) pullback_thresholds_stocks "G" "S" false = []) :=
  ⟨rfl, C9_isolation pullback_thresholds_stocks "G" "S" false [none] rfl⟩

/-- Claim C10: on a series of strictly positive closes, every value of a
`period > 1` pullback series is a finite fraction in `[0, 1)`: the rolling
maximum dominates the (positive) current close. -/
theorem C10_range (l : List ℚ) (p : ℕ) (hp : 1 < p) (hl : ∀ x ∈ l, 0 < x) :
    ∀ y ∈ calculate_pullback l p, ∃ q, y = .finite q ∧ 0 ≤ q ∧ q < 1 := by
  intro y hy
  obtain ⟨i, hi, rfl⟩ := mem_calculate_pullback hp.ne' hy
  have hgd : l.getD i 0 = l[i] := List.getD_eq_getElem l 0 hi
  have hci : 0 < l.getD i 0 := by
    rw [hgd]
    exact hl _ (List.getElem_mem hi)
  have hle : l.getD i 0 ≤ windowMax l p i := getD_le_windowMax l p i hi (by omega)
  have hm : 0 < windowMax l p i := lt_of_lt_of_le hci hle
  refine ⟨(windowMax l p i - l.getD i 0) / windowMax l p i, ?_, ?_, ?_⟩
  · simp [efDiv, hm.ne']
  · exact div_nonneg (sub_nonneg.2 hle) hm.le
  · rw [div_lt_one hm]
    linarith

/-- Witness for `C10_range`: the series `[100, 90]` at period 30. -/
theorem C10_range_wit :
    (1 < 30) ∧ (∀ x ∈ ([100, 90] : List ℚ), 0 < x) ∧
    (∀ y ∈ calculate_pullback [100, 90] 30, ∃ q, y = .finite q ∧ 0 ≤ q ∧ q < 1) :=
  ⟨by norm_num, by norm_num,
   C10_range [100, 90] 30 (by norm_num) (by norm_num)⟩
